import Mathlib

/-!
Shallow embedding of the DesireCraftAI generative client
(`src/packages/generative/lib/client.ts`, `src/packages/generative/types.ts`,
and the model-manager client in `src/unnamed/part_001`).

The remote Ollama server is modelled as an oracle: per-attempt outcomes for
`generate`, and an `Except`-valued `show`/`list` function for the registry.
Observable behaviour (log entries, sleeps, stream-handler callbacks, remote
calls) is captured in explicit traces so the spec's counting claims can be
stated and settled.
-/

/-- Decidable equality for `Except`, used to evaluate the embedding on
concrete inputs. -/
def exceptDecEq {ε α : Type} [DecidableEq ε] [DecidableEq α] :
    DecidableEq (Except ε α) := fun a b =>
  match a, b with
  | Except.ok x, Except.ok y =>
      if h : x = y then isTrue (by rw [h])
      else isFalse (fun c => by cases c; exact h rfl)
  | Except.ok _, Except.error _ => isFalse (fun c => by cases c)
  | Except.error _, Except.ok _ => isFalse (fun c => by cases c)
  | Except.error x, Except.error y =>
      if h : x = y then isTrue (by rw [h])
      else isFalse (fun c => by cases c; exact h rfl)

instance {ε α : Type} [DecidableEq ε] [DecidableEq α] :
    DecidableEq (Except ε α) := exceptDecEq

namespace Generative

/-- JS `String.prototype.includes`: substring containment as a Bool. -/
def strContains (s pat : String) : Bool :=
  s.data.tails.any (fun t => pat.data.isPrefixOf t)

/-- `GenerativeErrorCode` enum from client.ts lines 8-16. -/
inductive ErrorCode where
  | INITIALIZATION_FAILED
  | GENERATION_FAILED
  | INVALID_MODEL
  | RATE_LIMIT_EXCEEDED
  | VALIDATION_FAILED
  | NETWORK_ERROR
  | STREAM_ERROR
  deriving DecidableEq, Repr

/-- Raw (pre-validation) generate options: the argument of `generate`.
Optional fields are `Option`; JS numbers for temperature/topP are modelled
as rationals. -/
structure RawGenerateOptions where
  prompt : String
  model : Option String
  context : Option (List Int)
  temperature : Option ℚ
  topP : Option ℚ
  system : Option String
  stream : Option Bool
  deriving DecidableEq, Repr

/-- The structured `context` maps the `GenerativeError` constructor receives
at each throw site in client.ts (lines 268-306, 316-321). -/
inductive ErrCtx where
  | noCtx
  | promptModel (prompt model : String)
  | modelOnly (model : String)
  | attempts (n : Nat)
  | rawInput (o : RawGenerateOptions)
  deriving DecidableEq, Repr

/-- `GenerativeError`: message, code, wrapped cause (as the cause's message),
structured context. -/
structure GenError where
  msg : String
  code : ErrorCode
  cause : Option String
  ctx : ErrCtx
  deriving DecidableEq, Repr

/-- Validated, fully-defaulted generate options (`generateOptionsSchema`
output after zod defaulting, types.ts lines 6-53). -/
structure GenerateOptions where
  prompt : String
  model : String
  context : List Int
  temperature : ℚ
  topP : ℚ
  system : Option String
  stream : Bool
  deriving DecidableEq, Repr

/-- Range check for an optional numeric field: absent passes, present must
lie in [lo, hi] (zod `.min(lo).max(hi).optional()`). -/
def inRangeOpt (x : Option ℚ) (lo hi : ℚ) : Bool :=
  match x with
  | none => true
  | some v => decide (lo ≤ v ∧ v ≤ hi)

/-- `validateGenerateOptions` / `generateOptionsSchema.parse`
(types.ts lines 6-53, 103-105): bounds checks then defaulting. -/
def validateGenerateOptions (o : RawGenerateOptions) :
    Except String GenerateOptions :=
  if o.prompt.length < 1 then
    Except.error "Prompt cannot be empty"
  else if 1000 < o.prompt.length then
    Except.error "Prompt exceeds maximum length of 1000 characters"
  else if o.model.getD "llama2" = "" then
    Except.error "Model ID cannot be empty"
  else if ¬ inRangeOpt o.temperature 0 2 then
    Except.error "Temperature out of range"
  else if ¬ inRangeOpt o.topP 0 1 then
    Except.error "Top P out of range"
  else
    Except.ok
      { prompt := o.prompt
        model := o.model.getD "llama2"
        context := o.context.getD []
        temperature := o.temperature.getD (mkRat 7 10)
        topP := o.topP.getD (mkRat 9 10)
        system := o.system
        stream := o.stream.getD false }

/-- `isRetryableError` (client.ts lines 115-122). -/
def isRetryableError (msg : String) : Bool :=
  strContains msg "rate limit" || strContains msg "network" ||
    strContains msg "timeout"

/-- The terminal error classification after the retry loop
(client.ts lines 263-306). `optStream` is the truthiness of the RAW
`options.stream` (line 292 reads `options.stream`, not the validated copy). -/
def buildTerminalError (msg : String) (optStream : Bool)
    (prompt model : String) (maxRetries : Nat) : GenError :=
  if strContains msg "rate limit" then
    { msg := "Rate limit exceeded", code := ErrorCode.RATE_LIMIT_EXCEEDED
      cause := some msg, ctx := ErrCtx.promptModel prompt model }
  else if strContains msg "model not found" then
    { msg := "Invalid model specified", code := ErrorCode.INVALID_MODEL
      cause := some msg, ctx := ErrCtx.modelOnly model }
  else if strContains msg "network" || strContains msg "timeout" then
    { msg := "Network error occurred", code := ErrorCode.NETWORK_ERROR
      cause := some msg, ctx := ErrCtx.attempts (maxRetries + 1) }
  else if optStream then
    { msg := "Streaming error occurred", code := ErrorCode.STREAM_ERROR
      cause := some msg, ctx := ErrCtx.promptModel prompt model }
  else
    { msg := "Failed to generate content", code := ErrorCode.GENERATION_FAILED
      cause := some msg, ctx := ErrCtx.promptModel prompt model }

/-- The running metrics accumulator the streaming branch starts from
(client.ts lines 161-169). -/
structure Metrics where
  prompt_eval_count : Nat
  eval_count : Nat
  eval_duration : Nat
  total_duration : Nat
  load_duration : Nat
  done : Bool
  context : List Int
  deriving DecidableEq, Repr

def initMetrics : Metrics :=
  { prompt_eval_count := 0, eval_count := 0, eval_duration := 0
    total_duration := 0, load_duration := 0, done := false, context := [] }

/-- One partial event of the remote stream. Metric fields are optional:
the JS spread `{...finalMetrics, ...part}` copies exactly the fields the
event carries, field by field. -/
structure StreamEvent where
  response : String
  prompt_eval_count : Option Nat
  eval_count : Option Nat
  eval_duration : Option Nat
  total_duration : Option Nat
  load_duration : Option Nat
  done : Option Bool
  context : Option (List Int)
  deriving DecidableEq, Repr

/-- `finalMetrics = {...finalMetrics, ...part}` (client.ts lines 190-193):
fields present on the event overwrite the accumulator. -/
def mergeMetrics (m : Metrics) (e : StreamEvent) : Metrics :=
  { prompt_eval_count := e.prompt_eval_count.getD m.prompt_eval_count
    eval_count := e.eval_count.getD m.eval_count
    eval_duration := e.eval_duration.getD m.eval_duration
    total_duration := e.total_duration.getD m.total_duration
    load_duration := e.load_duration.getD m.load_duration
    done := e.done.getD m.done
    context := e.context.getD m.context }

/-- How the consumed event sequence ends: normal completion, or an
exception with the given message raised by the iterator. -/
inductive StreamOutcome where
  | complete
  | raise (msg : String)
  deriving DecidableEq, Repr

/-- Which optional callbacks the caller-supplied `StreamHandler` defines. -/
structure StreamHandler where
  hasOnToken : Bool
  hasOnComplete : Bool
  hasOnError : Bool
  deriving DecidableEq, Repr

/-- One observable stream-handler callback invocation. -/
inductive CbEvent where
  | onToken (s : String)
  | onComplete (m : Metrics) (full : String)
  | onError (msg : String)
  deriving DecidableEq, Repr

/-- The `for await (const part of stream)` loop plus its surrounding
try/catch (client.ts lines 171-221): per event invoke `onToken` (if present),
append the fragment, merge metrics; on completion invoke `onComplete` (if
present) and return the accumulated text; on a raised exception invoke
`onError` (if present) and re-raise. Returns the callback invocations in
order and the attempt's result. -/
def consumeStream (h : StreamHandler) (acc : String) (m : Metrics) :
    List StreamEvent → StreamOutcome → List CbEvent × Except String String
  | [], StreamOutcome.complete =>
      ((if h.hasOnComplete then [CbEvent.onComplete m acc] else []),
        Except.ok acc)
  | [], StreamOutcome.raise msg =>
      ((if h.hasOnError then [CbEvent.onError msg] else []), Except.error msg)
  | e :: rest, o =>
      let toks := if h.hasOnToken then [CbEvent.onToken e.response] else []
      let p := consumeStream h (acc ++ e.response) (mergeMetrics m e) rest o
      (toks ++ p.1, p.2)

/-- Observable events of one `generate` call: the structured logs, the
back-off sleeps, the remote attempt executions, and the stream-handler
callbacks. -/
inductive LogEvent where
  | infoRetrying (attempt : Nat)
  | attemptExec (attempt : Nat)
  | warnRetry (attempt delay : Nat) (msg : String)
  | sleep (ms : Nat)
  | cb (e : CbEvent)
  deriving DecidableEq, Repr

/-- Events emitted at the head of loop iteration `attempt`: the
"Retrying generation" info log (client.ts lines 155-157) and the marker for
the `this.ollama.generate` invocation itself. -/
def preLog (attempt : Nat) : List LogEvent :=
  if attempt = 0 then [LogEvent.attemptExec attempt]
  else [LogEvent.infoRetrying attempt, LogEvent.attemptExec attempt]

/-- A non-streaming attempt: outcome drawn from the remote oracle, no
callback events (client.ts lines 222-244). -/
def singleRun (outs : Nat → Except String String) (i : Nat) :
    List LogEvent × Except String String :=
  ([], outs i)

/-- A streaming attempt: each retry opens a fresh stream whose events and
ending the oracle `data` supplies per attempt index. -/
def streamRun (h : StreamHandler)
    (data : Nat → List StreamEvent × StreamOutcome) (i : Nat) :
    List LogEvent × Except String String :=
  let p := consumeStream h "" initMetrics (data i).1 (data i).2
  (p.1.map LogEvent.cb, p.2)

/-- The retry loop (client.ts lines 150-261). `remaining` is the number of
retries still allowed after the current attempt (`maxRetries - attempt`):
at `remaining = 0` the loop breaks whatever happens; otherwise a retryable
failure logs a warning, sleeps `B * 2 ^ attempt`, and retries. -/
def retryLoop (B : Nat) (run : Nat → List LogEvent × Except String String) :
    Nat → Nat → List LogEvent × Except String String
  | attempt, 0 =>
      let p := run attempt
      (preLog attempt ++ p.1, p.2)
  | attempt, remaining + 1 =>
      let p := run attempt
      match p.2 with
      | Except.ok s => (preLog attempt ++ p.1, Except.ok s)
      | Except.error msg =>
          if isRetryableError msg then
            let delay := B * 2 ^ attempt
            let q := retryLoop B run (attempt + 1) remaining
            (preLog attempt ++ p.1 ++
              (LogEvent.warnRetry attempt delay msg ::
                LogEvent.sleep delay :: q.1), q.2)
          else
            (preLog attempt ++ p.1, Except.error msg)

/-- `GenerativeClient.generate` (client.ts lines 124-325): validate, pick
the streaming path iff `stream && streamHandler`, run the retry loop, and
classify the terminal failure. Validation failure short-circuits with a
`VALIDATION_FAILED` error carrying the raw input and an empty trace. -/
def generate (M B : Nat) (o : RawGenerateOptions)
    (handler : Option StreamHandler)
    (streamData : Nat → List StreamEvent × StreamOutcome)
    (singleOuts : Nat → Except String String) :
    List LogEvent × Except GenError String :=
  match validateGenerateOptions o with
  | Except.error vmsg =>
      ([], Except.error
        { msg := "Validation failed", code := ErrorCode.VALIDATION_FAILED
          cause := some vmsg, ctx := ErrCtx.rawInput o })
  | Except.ok v =>
      let run := match handler with
        | some h =>
            if v.stream then streamRun h streamData else singleRun singleOuts
        | none => singleRun singleOuts
      let p := retryLoop B run 0 M
      match p.2 with
      | Except.ok s => (p.1, Except.ok s)
      | Except.error msg =>
          (p.1, Except.error
            (buildTerminalError msg (o.stream.getD false) v.prompt v.model M))

/-- Attempt indices recorded in a trace. -/
def attemptsOf : List LogEvent → List Nat
  | [] => []
  | LogEvent.attemptExec i :: rest => i :: attemptsOf rest
  | _ :: rest => attemptsOf rest

/-- Sleep durations recorded in a trace, in order. -/
def sleepsOf : List LogEvent → List Nat
  | [] => []
  | LogEvent.sleep ms :: rest => ms :: sleepsOf rest
  | _ :: rest => sleepsOf rest

/-- (attempt, delay) pairs of the warning-level retry logs, in order. -/
def warnsOf : List LogEvent → List (Nat × Nat)
  | [] => []
  | LogEvent.warnRetry a d _ :: rest => (a, d) :: warnsOf rest
  | _ :: rest => warnsOf rest

/-- Arguments of the `onToken` invocations, in order. -/
def tokensOf : List LogEvent → List String
  | [] => []
  | LogEvent.cb (CbEvent.onToken s) :: rest => s :: tokensOf rest
  | _ :: rest => tokensOf rest

/-- Arguments of the `onComplete` invocations, in order. -/
def completesOf : List LogEvent → List (Metrics × String)
  | [] => []
  | LogEvent.cb (CbEvent.onComplete m s) :: rest => (m, s) :: completesOf rest
  | _ :: rest => completesOf rest

/-- Arguments of the `onError` invocations, in order. -/
def errorsOf : List LogEvent → List String
  | [] => []
  | LogEvent.cb (CbEvent.onError msg) :: rest => msg :: errorsOf rest
  | _ :: rest => errorsOf rest

/-! ### Model registry (`src/unnamed/part_001`, `GenerativeClient implements ModelManager`) -/

/-- JS `Map.get`: first binding of the key, if any. -/
def cacheGet {α : Type} : List (String × α) → String → Option α
  | [], _ => none
  | (k', v') :: rest, k => if k' = k then some v' else cacheGet rest k

/-- JS `Map.set`: replace the binding in place, or append a new one. -/
def cacheSet {α : Type} : List (String × α) → String → α → List (String × α)
  | [], k, v => [(k, v)]
  | (k', v') :: rest, k, v =>
      if k' = k then (k, v) :: rest else (k', v') :: cacheSet rest k v

/-- Capability block of a `ModelConfig` (types.ts lines 172-195). -/
structure Capabilities where
  maxContextLength : Nat
  streaming : Bool
  systemPrompts : Bool
  tempMin : ℚ
  tempMax : ℚ
  tempDefault : ℚ
  topPMin : ℚ
  topPMax : ℚ
  topPDefault : ℚ
  deriving DecidableEq, Repr

/-- The fixed default capability set the registry synthesizes
(part_001 lines 173-187, 212-226, 258-272). -/
def defaultCaps : Capabilities :=
  { maxContextLength := 4096, streaming := true, systemPrompts := true
    tempMin := 0, tempMax := 2, tempDefault := mkRat 7 10
    topPMin := 0, topPMax := 1, topPDefault := mkRat 9 10 }

/-- Quantization level enum (types.ts line 120). -/
inductive Quant where
  | qnone
  | q4bit
  | q5bit
  | q8bit
  deriving DecidableEq, Repr

/-- A flat remote-parameter value: a renamed numeric/boolean/enum field or
an opaque free-form extra. -/
inductive PVal where
  | num (n : Nat)
  | boolV (b : Bool)
  | quant (q : Quant)
  | raw (s : String)
  deriving DecidableEq, Repr

/-- `parameters` group of `modelConfigSchema` (types.ts lines 113-128);
`modelParams` is the free-form record of extras. -/
structure ParamsOpts where
  contextLength : Option Nat
  gpuLayers : Option Nat
  quantization : Option Quant
  threads : Option Nat
  batchSize : Option Nat
  modelParams : Option (List (String × PVal))
  deriving DecidableEq, Repr

/-- `resources` group (types.ts lines 131-140). -/
structure ResourceOpts where
  maxMemory : Option Nat
  maxGpuMemory : Option Nat
  cpuCores : Option Nat
  deriving DecidableEq, Repr

/-- `performance` group (types.ts lines 143-152). -/
structure PerfOpts where
  useGpu : Option Bool
  useMetal : Option Bool
  useTensorCores : Option Bool
  deriving DecidableEq, Repr

/-- `ModelConfigOptions` (types.ts lines 110-156): three optional groups. -/
structure ModelConfigOptions where
  parameters : Option ParamsOpts
  resources : Option ResourceOpts
  performance : Option PerfOpts
  deriving DecidableEq, Repr

/-- The raw config blob `ollama.show` returns, copied verbatim into the
descriptor (part_001 lines 273-279). -/
def RemoteBlob : Type := List (String × String)

instance : DecidableEq RemoteBlob := by
  unfold RemoteBlob
  infer_instance

/-- `ModelConfig` descriptor (types.ts lines 161-205). -/
structure ModelConfig where
  id : String
  name : String
  provider : String
  capabilities : Capabilities
  customConfig : Option ModelConfigOptions
  config : Option RemoteBlob
  deriving DecidableEq

/-- Descriptor with default capabilities and no raw blob, as synthesized by
`listModels` for an uncached listing entry (part_001 lines 208-227). -/
def defaultModelConfig (name : String) : ModelConfig :=
  { id := name, name := name, provider := "ollama"
    capabilities := defaultCaps, customConfig := none, config := none }

/-- Descriptor synthesized by `getModel` on remote success: default
capabilities plus the raw remote config blob (part_001 lines 254-280). -/
def synthModelConfig (id : String) (blob : RemoteBlob) : ModelConfig :=
  { id := id, name := id, provider := "ollama"
    capabilities := defaultCaps, customConfig := none, config := some blob }

inductive StatusKind where
  | ready
  | loading
  | errorK
  deriving DecidableEq, Repr

/-- `ModelStatus` (types.ts lines 210-225). `lastUsed` timestamps are
opaque naturals. -/
structure ModelStatus where
  loaded : Bool
  status : StatusKind
  memoryUsage : Option Nat
  error : Option String
  lastUsed : Option Nat
  deriving DecidableEq, Repr

/-- Registry state: the two in-memory maps of the client instance. -/
structure RegState where
  modelConfigs : List (String × ModelConfig)
  modelStatus : List (String × ModelStatus)
  deriving DecidableEq

/-- The `llama2` descriptor the constructor seeds the cache with
(part_001 lines 169-188): id "llama2", display name "Llama 2", default
capabilities, no custom config and no raw blob. -/
def llama2Config : ModelConfig :=
  { id := "llama2", name := "Llama 2", provider := "ollama"
    capabilities := defaultCaps, customConfig := none, config := none }

/-- Registry state immediately after `new GenerativeClient(...)`
(part_001 lines 165-189): fresh maps, then `modelConfigs.set("llama2", ...)`. -/
def initRegState : RegState :=
  { modelConfigs := [("llama2", llama2Config)], modelStatus := [] }

/-- A remote call issued by a registry operation. -/
inductive RemoteCall where
  | show (id : String)
  | list
  | pull (id : String)
  | delete (id : String)
  deriving DecidableEq, Repr

/-- `getModel` (part_001 lines 243-296): cached descriptor short-circuits;
otherwise `ollama.show` is consulted — success synthesizes and caches a
descriptor, a "no such model" failure yields null, any other failure yields
an `INVALID_MODEL` error. -/
def getModel (st : RegState) (showR : String → Except String RemoteBlob)
    (id : String) :
    RegState × List RemoteCall × Except GenError (Option ModelConfig) :=
  match cacheGet st.modelConfigs id with
  | some cfg => (st, [], Except.ok (some cfg))
  | none =>
      match showR id with
      | Except.ok blob =>
          let cfg := synthModelConfig id blob
          ({ st with modelConfigs := cacheSet st.modelConfigs id cfg },
            [RemoteCall.show id], Except.ok (some cfg))
      | Except.error msg =>
          if strContains msg "no such model" then
            (st, [RemoteCall.show id], Except.ok none)
          else
            (st, [RemoteCall.show id], Except.error
              { msg := "Failed to get model information"
                code := ErrorCode.INVALID_MODEL
                cause := some msg, ctx := ErrCtx.noCtx })

/-- `getModelStatus` (part_001 lines 298-326): take the cached status (or
the loading default), overwrite it from a fresh `ollama.show` probe, write
it back, and return it. -/
def getModelStatus (st : RegState)
    (showR : String → Except String RemoteBlob) (id : String) :
    RegState × ModelStatus :=
  let base := (cacheGet st.modelStatus id).getD
    { loaded := false, status := StatusKind.loading
      memoryUsage := none, error := none, lastUsed := none }
  let s := match showR id with
    | Except.ok _ =>
        { base with loaded := true, status := StatusKind.ready, error := none }
    | Except.error msg =>
        { base with
          loaded := false
          status := StatusKind.errorK
          error := some msg }
  ({ st with modelStatus := cacheSet st.modelStatus id s }, s)

/-- One listing entry of `listModels` (part_001 lines 207-229): reuse the
cached descriptor or synthesize the default one, and (re-)insert it. -/
def listStep (st : RegState) (name : String) : RegState × ModelConfig :=
  let cfg := (cacheGet st.modelConfigs name).getD (defaultModelConfig name)
  ({ st with modelConfigs := cacheSet st.modelConfigs name cfg }, cfg)

/-- `listModels` (part_001 lines 204-241) over the remote listing outcome. -/
def listModels (st : RegState) :
    Except String (List String) →
      RegState × Except GenError (List ModelConfig)
  | Except.error msg =>
      (st, Except.error
        { msg := "Failed to list models"
          code := ErrorCode.INITIALIZATION_FAILED
          cause := some msg, ctx := ErrCtx.noCtx })
  | Except.ok names =>
      let p := names.foldl
        (fun (acc : RegState × List ModelConfig) name =>
          let q := listStep acc.1 name
          (q.1, acc.2 ++ [q.2]))
        (st, [])
      (p.1, Except.ok p.2)

/-! ### Configuration applier (`applyModelConfig`, part_001 lines 328-400) -/

/-- `if (field) modelParams.name = field` for a numeric field: JS truthiness
drops both absent and zero values. -/
def setNum (m : List (String × PVal)) (name : String) (v : Option Nat) :
    List (String × PVal) :=
  match v with
  | none => m
  | some n => if n = 0 then m else cacheSet m name (PVal.num n)

/-- `if (flag !== undefined) modelParams.name = flag` for a boolean field. -/
def setBool (m : List (String × PVal)) (name : String) (v : Option Bool) :
    List (String × PVal) :=
  match v with
  | none => m
  | some b => cacheSet m name (PVal.boolV b)

/-- `if (quantization) modelParams.quantization = quantization`: enum
strings are always truthy when present. -/
def setQuant (m : List (String × PVal)) (v : Option Quant) :
    List (String × PVal) :=
  match v with
  | none => m
  | some q => cacheSet m "quantization" (PVal.quant q)

/-- `if (customParams) Object.assign(modelParams, customParams)`: every
own property of the extras record is copied, falsy values included. -/
def setExtras (m : List (String × PVal))
    (v : Option (List (String × PVal))) : List (String × PVal) :=
  match v with
  | none => m
  | some ps => ps.foldl (fun acc kv => cacheSet acc kv.1 kv.2) m

/-- The `parameters` group of assignments (part_001 lines 340-355). -/
def flattenParams (m0 : List (String × PVal)) (p : ParamsOpts) :
    List (String × PVal) :=
  let m1 := setNum m0 "context_length" p.contextLength
  let m2 := setNum m1 "gpu_layers" p.gpuLayers
  let m3 := setQuant m2 p.quantization
  let m4 := setNum m3 "num_threads" p.threads
  let m5 := setNum m4 "batch_size" p.batchSize
  setExtras m5 p.modelParams

/-- The `resources` group of assignments (part_001 lines 357-363). -/
def flattenResources (m0 : List (String × PVal)) (r : ResourceOpts) :
    List (String × PVal) :=
  let m1 := setNum m0 "max_memory" r.maxMemory
  let m2 := setNum m1 "max_gpu_memory" r.maxGpuMemory
  setNum m2 "num_cpu" r.cpuCores

/-- The `performance` group of assignments (part_001 lines 365-372). -/
def flattenPerf (m0 : List (String × PVal)) (pf : PerfOpts) :
    List (String × PVal) :=
  let m1 := setBool m0 "use_gpu" pf.useGpu
  let m2 := setBool m1 "use_metal" pf.useMetal
  setBool m2 "use_tensor_cores" pf.useTensorCores

/-- The flat parameter vector `applyModelConfig` builds and sends to the
remote server (part_001 lines 337-372), preserving the source's assignment
order and JS truthiness guards. -/
def flattenConfig (c : ModelConfigOptions) : List (String × PVal) :=
  let m1 := match c.parameters with
    | none => ([] : List (String × PVal))
    | some p => flattenParams [] p
  let m2 := match c.resources with
    | none => m1
    | some r => flattenResources m1 r
  match c.performance with
  | none => m2
  | some pf => flattenPerf m2 pf

/-! ### Trace-extractor lemmas -/

@[simp]
lemma attemptsOf_append (a b : List LogEvent) :
    attemptsOf (a ++ b) = attemptsOf a ++ attemptsOf b := by
  induction a with
  | nil => simp [attemptsOf]
  | cons x rest ih => cases x <;> simp [attemptsOf, ih]

@[simp]
lemma sleepsOf_append (a b : List LogEvent) :
    sleepsOf (a ++ b) = sleepsOf a ++ sleepsOf b := by
  induction a with
  | nil => simp [sleepsOf]
  | cons x rest ih => cases x <;> simp [sleepsOf, ih]

@[simp]
lemma warnsOf_append (a b : List LogEvent) :
    warnsOf (a ++ b) = warnsOf a ++ warnsOf b := by
  induction a with
  | nil => simp [warnsOf]
  | cons x rest ih => cases x <;> simp [warnsOf, ih]

@[simp]
lemma tokensOf_append (a b : List LogEvent) :
    tokensOf (a ++ b) = tokensOf a ++ tokensOf b := by
  induction a with
  | nil => simp [tokensOf]
  | cons x rest ih =>
      cases x with
      | cb e => cases e <;> simp [tokensOf, ih]
      | _ => simp [tokensOf, ih]

@[simp]
lemma completesOf_append (a b : List LogEvent) :
    completesOf (a ++ b) = completesOf a ++ completesOf b := by
  induction a with
  | nil => simp [completesOf]
  | cons x rest ih =>
      cases x with
      | cb e => cases e <;> simp [completesOf, ih]
      | _ => simp [completesOf, ih]

@[simp]
lemma errorsOf_append (a b : List LogEvent) :
    errorsOf (a ++ b) = errorsOf a ++ errorsOf b := by
  induction a with
  | nil => simp [errorsOf]
  | cons x rest ih =>
      cases x with
      | cb e => cases e <;> simp [errorsOf, ih]
      | _ => simp [errorsOf, ih]

@[simp]
lemma tokensOf_map_onToken (es : List StreamEvent) :
    tokensOf (es.map (fun e => LogEvent.cb (CbEvent.onToken e.response))) =
      es.map (fun e => e.response) := by
  induction es with
  | nil => simp [tokensOf]
  | cons e rest ih => simp [tokensOf, ih]

@[simp]
lemma completesOf_map_onToken (es : List StreamEvent) :
    completesOf (es.map (fun e => LogEvent.cb (CbEvent.onToken e.response))) =
      [] := by
  induction es with
  | nil => simp [completesOf]
  | cons e rest ih => simp [completesOf, ih]

@[simp]
lemma errorsOf_map_onToken (es : List StreamEvent) :
    errorsOf (es.map (fun e => LogEvent.cb (CbEvent.onToken e.response))) =
      [] := by
  induction es with
  | nil => simp [errorsOf]
  | cons e rest ih => simp [errorsOf, ih]

@[simp]
lemma tokensOf_map_comp_onToken (es : List StreamEvent) :
    tokensOf
        (es.map (LogEvent.cb ∘ fun e => CbEvent.onToken e.response)) =
      es.map (fun e => e.response) := by
  induction es with
  | nil => simp [tokensOf]
  | cons e rest ih => simp [tokensOf, ih, Function.comp]

@[simp]
lemma completesOf_map_comp_onToken (es : List StreamEvent) :
    completesOf
        (es.map (LogEvent.cb ∘ fun e => CbEvent.onToken e.response)) = [] := by
  induction es with
  | nil => simp [completesOf]
  | cons e rest ih => simp [completesOf, ih, Function.comp]

@[simp]
lemma errorsOf_map_comp_onToken (es : List StreamEvent) :
    errorsOf
        (es.map (LogEvent.cb ∘ fun e => CbEvent.onToken e.response)) = [] := by
  induction es with
  | nil => simp [errorsOf]
  | cons e rest ih => simp [errorsOf, ih, Function.comp]

@[simp]
lemma attemptsOf_map_cb (cs : List CbEvent) :
    attemptsOf (cs.map LogEvent.cb) = [] := by
  induction cs with
  | nil => simp [attemptsOf]
  | cons c rest ih => simp [attemptsOf, ih]

@[simp]
lemma sleepsOf_map_cb (cs : List CbEvent) :
    sleepsOf (cs.map LogEvent.cb) = [] := by
  induction cs with
  | nil => simp [sleepsOf]
  | cons c rest ih => simp [sleepsOf, ih]

@[simp]
lemma warnsOf_map_cb (cs : List CbEvent) :
    warnsOf (cs.map LogEvent.cb) = [] := by
  induction cs with
  | nil => simp [warnsOf]
  | cons c rest ih => simp [warnsOf, ih]

/-! ### Stream-consumption characterization -/

/-- The full accumulated text: `fullResponse` after the event loop. -/
def accText (acc : String) (es : List StreamEvent) : String :=
  es.foldl (fun a e => a ++ e.response) acc

/-- The merged metrics snapshot after the event loop. -/
def accMetrics (m : Metrics) (es : List StreamEvent) : Metrics :=
  es.foldl mergeMetrics m

/-- A stream that completes normally: every event produces an `onToken`
invocation (when the callback is present) in sequence order, `onComplete`
is invoked once (when present) with the merged metrics and the accumulated
text, and the attempt returns the accumulated text. -/
lemma consumeStream_complete (h : StreamHandler) :
    ∀ (es : List StreamEvent) (acc : String) (m : Metrics),
      consumeStream h acc m es StreamOutcome.complete =
        ((if h.hasOnToken then
            es.map (fun e => CbEvent.onToken e.response) else []) ++
          (if h.hasOnComplete then
            [CbEvent.onComplete (accMetrics m es) (accText acc es)] else []),
          Except.ok (accText acc es)) := by
  intro es
  induction es with
  | nil =>
      intro acc m
      simp [consumeStream, accText, accMetrics]
  | cons e rest ih =>
      intro acc m
      simp only [consumeStream, ih, accText, accMetrics, List.foldl_cons]
      cases hb : h.hasOnToken <;> simp

/-- A stream that raises after its events: every delivered event produces
an `onToken` invocation (when present), then `onError` is invoked (when
present) with the raised message, and the attempt re-raises the message. -/
lemma consumeStream_raise (h : StreamHandler) (msg : String) :
    ∀ (es : List StreamEvent) (acc : String) (m : Metrics),
      consumeStream h acc m es (StreamOutcome.raise msg) =
        ((if h.hasOnToken then
            es.map (fun e => CbEvent.onToken e.response) else []) ++
          (if h.hasOnError then [CbEvent.onError msg] else []),
          Except.error msg) := by
  intro es
  induction es with
  | nil =>
      intro acc m
      simp [consumeStream]
  | cons e rest ih =>
      intro acc m
      simp only [consumeStream, ih]
      cases hb : h.hasOnToken <;> simp

/-! ### Retry-loop characterization -/

/-- The exact trace of a non-streaming run whose first `n` attempts starting
at `a` fail retryably with messages `msgs` and whose attempt `a + n`
succeeds. -/
def mkTrace (B : Nat) (msgs : Nat → String) : Nat → Nat → List LogEvent
  | a, 0 => preLog a
  | a, n + 1 =>
      preLog a ++
        (LogEvent.warnRetry a (B * 2 ^ a) (msgs a) ::
          LogEvent.sleep (B * 2 ^ a) :: mkTrace B msgs (a + 1) n)

/-- If the next `n` attempts fail with retryable messages and attempt
`a + n` succeeds within the allowed budget, the loop returns the successful
attempt's text with the canonical trace. -/
lemma retryLoop_ok (B : Nat) (outs : Nat → Except String String)
    (msgs : Nat → String) (t : String) :
    ∀ (n a rem : Nat), n ≤ rem →
      (∀ k, k < n → outs (a + k) = Except.error (msgs (a + k)) ∧
        isRetryableError (msgs (a + k)) = true) →
      outs (a + n) = Except.ok t →
      retryLoop B (singleRun outs) a rem = (mkTrace B msgs a n, Except.ok t) := by
  intro n
  induction n with
  | zero =>
      intro a rem _ _ hsucc
      cases rem with
      | zero =>
          simp only [retryLoop, singleRun, mkTrace]
          rw [show a + 0 = a from rfl] at hsucc
          simp [hsucc]
      | succ r =>
          simp only [retryLoop, singleRun, mkTrace]
          rw [show a + 0 = a from rfl] at hsucc
          simp [hsucc]
  | succ n ih =>
      intro a rem hle hfail hsucc
      cases rem with
      | zero => omega
      | succ r =>
          have h0 := hfail 0 (Nat.succ_pos n)
          rw [show a + 0 = a from rfl] at h0
          have hrec := ih (a + 1) r (by omega)
            (fun k hk => by
              have := hfail (k + 1) (by omega)
              rwa [show a + (k + 1) = a + 1 + k by omega] at this)
            (by rwa [show a + 1 + n = a + (n + 1) by omega])
          simp only [retryLoop, singleRun, h0.1, h0.2, if_true, hrec, mkTrace]
          simp

/-- A non-retryable first failure (or an exhausted budget with any failure)
stops the loop at once with that message. -/
lemma retryLoop_stop (B : Nat) (run : Nat → List LogEvent × Except String String)
    (a rem : Nat) (msg : String)
    (hrun : (run a).2 = Except.error msg)
    (hnr : isRetryableError msg = false) :
    retryLoop B run a rem = (preLog a ++ (run a).1, Except.error msg) := by
  cases rem with
  | zero => simp [retryLoop, hrun]
  | succ r => simp [retryLoop, hrun, hnr]

/-- A successful attempt stops the loop at once with its text. -/
lemma retryLoop_first_ok (B : Nat)
    (run : Nat → List LogEvent × Except String String)
    (a rem : Nat) (t : String) (hrun : (run a).2 = Except.ok t) :
    retryLoop B run a rem = (preLog a ++ (run a).1, Except.ok t) := by
  cases rem with
  | zero => simp [retryLoop, hrun]
  | succ r => simp [retryLoop, hrun]

/-- The loop executes at most `rem + 1` attempts, provided the per-attempt
event lists carry no attempt markers of their own. -/
lemma retryLoop_attempts_le (B : Nat)
    (run : Nat → List LogEvent × Except String String)
    (hrun : ∀ i, attemptsOf (run i).1 = []) :
    ∀ (rem a : Nat),
      (attemptsOf (retryLoop B run a rem).1).length ≤ rem + 1 := by
  intro rem
  induction rem with
  | zero =>
      intro a
      simp [retryLoop, hrun, preLog]
      split <;> simp [attemptsOf]
  | succ r ih =>
      intro a
      simp only [retryLoop]
      cases hres : (run a).2 with
      | ok s =>
          simp [hrun, preLog]
          split <;> simp [attemptsOf]
      | error msg =>
          by_cases hretry : isRetryableError msg
          · have := ih (a + 1)
            simp [hretry, hrun, preLog, attemptsOf]
            split <;> simp [attemptsOf] <;> omega
          · simp [hretry, hrun, preLog]
            split <;> simp [attemptsOf]

/-- Attempt indices recorded by the canonical trace. -/
lemma attemptsOf_mkTrace (B : Nat) (msgs : Nat → String) :
    ∀ (n a : Nat),
      attemptsOf (mkTrace B msgs a n) =
        (List.range (n + 1)).map (fun k => a + k) := by
  intro n
  induction n with
  | zero =>
      intro a
      simp only [mkTrace, preLog]
      split <;> simp [attemptsOf, List.range_succ]
  | succ n ih =>
      intro a
      have hr : (List.range (n + 1 + 1)).map (fun k => a + k) =
          a :: (List.range (n + 1)).map (fun k => a + 1 + k) := by
        rw [List.range_succ_eq_map]
        simp only [List.map_cons, List.map_map, Nat.add_zero]
        congr 1
        apply List.map_congr_left
        intro k _
        simp only [Function.comp_apply]
        omega
      rw [hr]
      simp only [mkTrace, attemptsOf_append, preLog]
      split <;> simp [attemptsOf, ih]

/-- Sleeps recorded by the canonical trace: one per retry, exponentially
growing. -/
lemma sleepsOf_mkTrace (B : Nat) (msgs : Nat → String) :
    ∀ (n a : Nat),
      sleepsOf (mkTrace B msgs a n) =
        (List.range n).map (fun k => B * 2 ^ (a + k)) := by
  intro n
  induction n with
  | zero =>
      intro a
      simp only [mkTrace, preLog, List.range_zero, List.map_nil]
      split <;> simp [sleepsOf]
  | succ n ih =>
      intro a
      have hr : (List.range (n + 1)).map (fun k => B * 2 ^ (a + k)) =
          B * 2 ^ a :: (List.range n).map (fun k => B * 2 ^ (a + 1 + k)) := by
        rw [List.range_succ_eq_map]
        simp only [List.map_cons, List.map_map, Nat.add_zero]
        congr 1
        apply List.map_congr_left
        intro k _
        simp only [Function.comp_apply]
        have hk : a + Nat.succ k = a + 1 + k := by omega
        rw [hk]
      rw [hr]
      simp only [mkTrace, sleepsOf_append, preLog]
      split <;> simp [sleepsOf, ih]

/-- Warning-level retry logs recorded by the canonical trace. -/
lemma warnsOf_mkTrace (B : Nat) (msgs : Nat → String) :
    ∀ (n a : Nat),
      warnsOf (mkTrace B msgs a n) =
        (List.range n).map (fun k => (a + k, B * 2 ^ (a + k))) := by
  intro n
  induction n with
  | zero =>
      intro a
      simp only [mkTrace, preLog, List.range_zero, List.map_nil]
      split <;> simp [warnsOf]
  | succ n ih =>
      intro a
      have hr : (List.range (n + 1)).map (fun k => (a + k, B * 2 ^ (a + k))) =
          (a, B * 2 ^ a) ::
            (List.range n).map (fun k => (a + 1 + k, B * 2 ^ (a + 1 + k))) := by
        rw [List.range_succ_eq_map]
        simp only [List.map_cons, List.map_map, Nat.add_zero]
        congr 1
        apply List.map_congr_left
        intro k _
        simp only [Function.comp_apply]
        have hk : a + Nat.succ k = a + 1 + k := by omega
        rw [hk]
      rw [hr]
      simp only [mkTrace, warnsOf_append, preLog]
      split <;> simp [warnsOf, ih]

/-- Successful validation yields exactly the defaulted copy of the input. -/
lemma validate_ok_fields (o : RawGenerateOptions) (v : GenerateOptions)
    (hv : validateGenerateOptions o = Except.ok v) :
    v = { prompt := o.prompt
          model := o.model.getD "llama2"
          context := o.context.getD []
          temperature := o.temperature.getD (mkRat 7 10)
          topP := o.topP.getD (mkRat 9 10)
          system := o.system
          stream := o.stream.getD false } := by
  simp only [validateGenerateOptions] at hv
  repeat' split at hv
  all_goals cases hv
  all_goals rfl

/-- The post-loop step of `generate`: pass a success through, classify a
terminal failure (client.ts lines 263-310). -/
def classifyResult (o : RawGenerateOptions) (v : GenerateOptions) (M : Nat)
    (p : List LogEvent × Except String String) :
    List LogEvent × Except GenError String :=
  match p.2 with
  | Except.ok s => (p.1, Except.ok s)
  | Except.error msg =>
      (p.1, Except.error
        (buildTerminalError msg (o.stream.getD false) v.prompt v.model M))

/-- `generate` with a validated input and no stream handler reduces to the
retry loop over single-shot attempts plus terminal classification. -/
lemma generate_ok_single (M B : Nat) (o : RawGenerateOptions)
    (v : GenerateOptions)
    (sd : Nat → List StreamEvent × StreamOutcome)
    (outs : Nat → Except String String)
    (hv : validateGenerateOptions o = Except.ok v) :
    generate M B o none sd outs =
      classifyResult o v M (retryLoop B (singleRun outs) 0 M) := by
  simp only [generate, hv, classifyResult]

/-- `generate` with a validated input whose `stream` is true and a handler
present reduces to the retry loop over streaming attempts plus terminal
classification. -/
lemma generate_ok_stream (M B : Nat) (o : RawGenerateOptions)
    (v : GenerateOptions) (h : StreamHandler)
    (sd : Nat → List StreamEvent × StreamOutcome)
    (outs : Nat → Except String String)
    (hv : validateGenerateOptions o = Except.ok v)
    (hs : v.stream = true) :
    generate M B o (some h) sd outs =
      classifyResult o v M (retryLoop B (streamRun h sd) 0 M) := by
  simp only [generate, hv, hs, if_true, classifyResult]

/-- `generate` with a validated input, a handler present, but `stream`
false also takes the single-shot path. -/
lemma generate_ok_single_handler (M B : Nat) (o : RawGenerateOptions)
    (v : GenerateOptions) (h : StreamHandler)
    (sd : Nat → List StreamEvent × StreamOutcome)
    (outs : Nat → Except String String)
    (hv : validateGenerateOptions o = Except.ok v)
    (hs : v.stream = false) :
    generate M B o (some h) sd outs =
      classifyResult o v M (retryLoop B (singleRun outs) 0 M) := by
  simp only [generate, hv, hs, classifyResult]
  rfl

lemma classifyResult_fst (o : RawGenerateOptions) (v : GenerateOptions)
    (M : Nat) (p : List LogEvent × Except String String) :
    (classifyResult o v M p).1 = p.1 := by
  unfold classifyResult
  split <;> rfl

/-- Every `generate` call executes the underlying attempt at most `M + 1`
times. -/
lemma generate_attempts_le (M B : Nat) (o : RawGenerateOptions)
    (handler : Option StreamHandler)
    (sd : Nat → List StreamEvent × StreamOutcome)
    (so : Nat → Except String String) :
    (attemptsOf (generate M B o handler sd so).1).length ≤ M + 1 := by
  cases hvo : validateGenerateOptions o with
  | error m => simp [generate, hvo, attemptsOf]
  | ok v =>
      have hsingle : ∀ i, attemptsOf (singleRun so i).1 = [] := by
        intro i
        rfl
      cases handler with
      | none =>
          rw [generate_ok_single M B o v sd so hvo, classifyResult_fst]
          exact retryLoop_attempts_le B (singleRun so) hsingle M 0
      | some h =>
          cases hst : v.stream with
          | false =>
              rw [generate_ok_single_handler M B o v h sd so hvo hst,
                classifyResult_fst]
              exact retryLoop_attempts_le B (singleRun so) hsingle M 0
          | true =>
              rw [generate_ok_stream M B o v h sd so hvo hst,
                classifyResult_fst]
              refine retryLoop_attempts_le B (streamRun h sd) ?_ M 0
              intro i
              simp [streamRun]

/-- C1: with maxRetries `M` and baseRetryDelay `B`, the attempt runs at
most `M + 1` times; if the first `N` attempts (`N < M`) fail with messages
containing "rate limit" and attempt `N + 1` succeeds, `generate` returns
the successful attempt's text, the attempt indices executed are exactly
`0..N`, exactly `N` warning-level retry logs are emitted, and the sleep
before retry `k` is exactly `B * 2 ^ k` ms with no sleep before the first
attempt (trace order fixed by `mkTrace`). -/
theorem C1_retry_backoff (M B N : Nat) (t : String)
    (o : RawGenerateOptions) (v : GenerateOptions)
    (sd : Nat → List StreamEvent × StreamOutcome)
    (outs : Nat → Except String String) (msgs : Nat → String)
    (hv : validateGenerateOptions o = Except.ok v)
    (hN : N < M)
    (hfail : ∀ k, k < N → outs k = Except.error (msgs k) ∧
      strContains (msgs k) "rate limit" = true)
    (hsucc : outs N = Except.ok t) :
    (∀ (o' : RawGenerateOptions) (handler : Option StreamHandler)
        (sd' : Nat → List StreamEvent × StreamOutcome)
        (so : Nat → Except String String),
        (attemptsOf (generate M B o' handler sd' so).1).length ≤ M + 1) ∧
      generate M B o none sd outs = (mkTrace B msgs 0 N, Except.ok t) ∧
      attemptsOf (mkTrace B msgs 0 N) = List.range (N + 1) ∧
      warnsOf (mkTrace B msgs 0 N) =
        (List.range N).map (fun k => (k, B * 2 ^ k)) ∧
      sleepsOf (mkTrace B msgs 0 N) =
        (List.range N).map (fun k => B * 2 ^ k) := by
  refine ⟨fun o' handler sd' so => generate_attempts_le M B o' handler sd' so,
    ?_, ?_, ?_, ?_⟩
  · have hloop := retryLoop_ok B outs msgs t N 0 M (Nat.le_of_lt hN)
      (fun k hk => by
        refine ⟨by simpa using (hfail k hk).1, ?_⟩
        have h2 := (hfail k hk).2
        simp only [Nat.zero_add]
        simp [isRetryableError, h2])
      (by simpa using hsucc)
    rw [generate_ok_single M B o v sd outs hv, hloop]
    rfl
  · have := attemptsOf_mkTrace B msgs N 0
    simpa using this
  · have := warnsOf_mkTrace B msgs N 0
    simpa using this
  · have := sleepsOf_mkTrace B msgs N 0
    simpa using this

def c1o : RawGenerateOptions :=
  { prompt := "p", model := none, context := none, temperature := none
    topP := none, system := none, stream := none }

def c1v : GenerateOptions :=
  { prompt := "p", model := "llama2", context := []
    temperature := mkRat 7 10, topP := mkRat 9 10, system := none
    stream := false }

def c1outs : Nat → Except String String :=
  fun i => if i = 0 then Except.error "rate limit" else Except.ok "hi"

def c1msgs : Nat → String := fun _ => "rate limit"

def c1sd : Nat → List StreamEvent × StreamOutcome :=
  fun _ => ([], StreamOutcome.complete)

/-- Witness for C1: one "rate limit" failure, then success, with
maxRetries 2 and base delay 1. -/
theorem C1_retry_backoff_witness :
    generate 2 1 c1o none c1sd c1outs = (mkTrace 1 c1msgs 0 1, Except.ok "hi") :=
  (C1_retry_backoff 2 1 1 "hi" c1o c1v c1sd c1outs c1msgs
    (by decide) (by decide) (by decide) (by decide)).2.1

/-- C6: a prompt of length 0 or above 1000 makes `generate` fail with a
`VALIDATION_FAILED` error carrying the rejected input as context and the
validation failure as cause, with an empty trace — no attempt, retry or
sleep happens. -/
theorem C6_validation_short_circuit (M B : Nat) (o : RawGenerateOptions)
    (handler : Option StreamHandler)
    (sd : Nat → List StreamEvent × StreamOutcome)
    (so : Nat → Except String String)
    (hp : o.prompt.length = 0 ∨ 1000 < o.prompt.length) :
    ∃ vmsg, generate M B o handler sd so =
      ([], Except.error
        { msg := "Validation failed", code := ErrorCode.VALIDATION_FAILED
          cause := some vmsg, ctx := ErrCtx.rawInput o }) := by
  rcases hp with hp | hp
  · refine ⟨"Prompt cannot be empty", ?_⟩
    have hv : validateGenerateOptions o =
        Except.error "Prompt cannot be empty" := by
      unfold validateGenerateOptions
      rw [if_pos (by omega)]
    simp [generate, hv]
  · refine ⟨"Prompt exceeds maximum length of 1000 characters", ?_⟩
    have hv : validateGenerateOptions o =
        Except.error "Prompt exceeds maximum length of 1000 characters" := by
      unfold validateGenerateOptions
      rw [if_neg (by omega), if_pos (by omega)]
    simp [generate, hv]

/-- Witness for C6 at the empty prompt. -/
theorem C6_validation_short_circuit_witness :
    ∃ vmsg,
      generate 3 1000
        { prompt := "", model := none, context := none, temperature := none
          topP := none, system := none, stream := none }
        none (fun _ => ([], StreamOutcome.complete)) (fun _ => Except.ok "x") =
      ([], Except.error
        { msg := "Validation failed", code := ErrorCode.VALIDATION_FAILED
          cause := some vmsg
          ctx := ErrCtx.rawInput
            { prompt := "", model := none, context := none, temperature := none
              topP := none, system := none, stream := none } }) :=
  C6_validation_short_circuit 3 1000 _ none _ _ (Or.inl (by decide))

/-- C2: a streaming call whose event sequence completes without exception
returns the in-order concatenation of the fragments; `onToken` (when
present) fires once per event in order with that event's fragment,
`onComplete` (when present) fires exactly once with the accumulated text
and the field-by-field merged metrics, and `onError` never fires. -/
theorem C2_streaming_success (M B : Nat) (o : RawGenerateOptions)
    (v : GenerateOptions) (h : StreamHandler) (es : List StreamEvent)
    (sd : Nat → List StreamEvent × StreamOutcome)
    (so : Nat → Except String String)
    (hv : validateGenerateOptions o = Except.ok v)
    (hs : v.stream = true)
    (hd : sd 0 = (es, StreamOutcome.complete)) :
    (generate M B o (some h) sd so).2 = Except.ok (accText "" es) ∧
      tokensOf (generate M B o (some h) sd so).1 =
        (if h.hasOnToken then es.map (fun e => e.response) else []) ∧
      completesOf (generate M B o (some h) sd so).1 =
        (if h.hasOnComplete
          then [(accMetrics initMetrics es, accText "" es)] else []) ∧
      errorsOf (generate M B o (some h) sd so).1 = [] := by
  have hrun : streamRun h sd 0 =
      (((if h.hasOnToken
          then es.map (fun e => CbEvent.onToken e.response) else []) ++
        (if h.hasOnComplete
          then [CbEvent.onComplete (accMetrics initMetrics es)
            (accText "" es)] else [])).map LogEvent.cb,
        Except.ok (accText "" es)) := by
    simp [streamRun, hd, consumeStream_complete]
  have hloop := retryLoop_first_ok B (streamRun h sd) 0 M (accText "" es)
    (by rw [hrun])
  rw [generate_ok_stream M B o v h sd so hv hs, hloop, hrun]
  simp only [classifyResult, preLog, if_pos rfl]
  cases hot : h.hasOnToken <;> cases hoc : h.hasOnComplete <;>
    simp [tokensOf, completesOf, errorsOf, Function.comp]

def c2ev (r : String) : StreamEvent :=
  { response := r, prompt_eval_count := none, eval_count := none
    eval_duration := none, total_duration := none, load_duration := none
    done := none, context := none }

def c2o : RawGenerateOptions :=
  { prompt := "p", model := none, context := none, temperature := none
    topP := none, system := none, stream := some true }

def c2v : GenerateOptions :=
  { prompt := "p", model := "llama2", context := []
    temperature := mkRat 7 10, topP := mkRat 9 10, system := none
    stream := true }

def c2h : StreamHandler :=
  { hasOnToken := true, hasOnComplete := true, hasOnError := true }

def c2sd : Nat → List StreamEvent × StreamOutcome :=
  fun _ => ([c2ev " token", c2ev " by", c2ev " token"], StreamOutcome.complete)

/-- Witness for C2: three fragments concatenate to " token by token". -/
theorem C2_streaming_success_witness :
    (generate 3 1000 c2o (some c2h) c2sd (fun _ => Except.ok "x")).2 =
      Except.ok (accText "" [c2ev " token", c2ev " by", c2ev " token"]) :=
  (C2_streaming_success 3 1000 c2o c2v c2h
    [c2ev " token", c2ev " by", c2ev " token"] c2sd (fun _ => Except.ok "x")
    (by decide) (by decide) rfl).1

/-- C3 (amended): a streaming call whose sequence delivers two events and
then raises a NON-RETRYABLE exception whose message also avoids
"model not found" invokes `onToken` exactly twice, invokes `onError` (when
present) exactly once with the raised message and before control returns
to the retry loop (trace order), never invokes `onComplete`, and surfaces a
`STREAM_ERROR` to the caller with no retry. -/
theorem C3_streaming_failure (M B : Nat) (o : RawGenerateOptions)
    (v : GenerateOptions) (h : StreamHandler) (e0 e1 : StreamEvent)
    (msg : String)
    (sd : Nat → List StreamEvent × StreamOutcome)
    (so : Nat → Except String String)
    (hv : validateGenerateOptions o = Except.ok v)
    (hs : v.stream = true)
    (ht : h.hasOnToken = true)
    (hd : sd 0 = ([e0, e1], StreamOutcome.raise msg))
    (hnr : isRetryableError msg = false)
    (hmf : strContains msg "model not found" = false) :
    tokensOf (generate M B o (some h) sd so).1 =
        [e0.response, e1.response] ∧
      errorsOf (generate M B o (some h) sd so).1 =
        (if h.hasOnError then [msg] else []) ∧
      completesOf (generate M B o (some h) sd so).1 = [] ∧
      (generate M B o (some h) sd so).1 =
        LogEvent.attemptExec 0 ::
          LogEvent.cb (CbEvent.onToken e0.response) ::
          LogEvent.cb (CbEvent.onToken e1.response) ::
          (if h.hasOnError then [LogEvent.cb (CbEvent.onError msg)] else []) ∧
      (generate M B o (some h) sd so).2 =
        Except.error
          { msg := "Streaming error occurred"
            code := ErrorCode.STREAM_ERROR
            cause := some msg
            ctx := ErrCtx.promptModel v.prompt v.model } := by
  have hparts : strContains msg "rate limit" = false ∧
      strContains msg "network" = false ∧
      strContains msg "timeout" = false := by
    simp only [isRetryableError, Bool.or_eq_false_iff] at hnr
    exact ⟨hnr.1.1, hnr.1.2, hnr.2⟩
  have hostream : o.stream.getD false = true := by
    have hvf := validate_ok_fields o v hv
    rw [hvf] at hs
    exact hs
  have hrun : streamRun h sd 0 =
      ((CbEvent.onToken e0.response :: CbEvent.onToken e1.response ::
          (if h.hasOnError then [CbEvent.onError msg] else [])).map
        LogEvent.cb,
        Except.error msg) := by
    simp [streamRun, hd, consumeStream_raise, ht]
  have hstop := retryLoop_stop B (streamRun h sd) 0 M msg (by rw [hrun]) hnr
  rw [generate_ok_stream M B o v h sd so hv hs, hstop, hrun]
  simp only [classifyResult, preLog, if_pos rfl]
  rw [show buildTerminalError msg (o.stream.getD false) v.prompt v.model M =
      { msg := "Streaming error occurred", code := ErrorCode.STREAM_ERROR
        cause := some msg, ctx := ErrCtx.promptModel v.prompt v.model } by
    simp [buildTerminalError, hparts.1, hparts.2.1, hparts.2.2, hmf, hostream]]
  cases hoe : h.hasOnError <;>
    simp [tokensOf, completesOf, errorsOf]

def c3sd : Nat → List StreamEvent × StreamOutcome :=
  fun _ => ([c2ev "a", c2ev "b"], StreamOutcome.raise "boom")

/-- Witness for C3 at a concrete non-retryable mid-stream failure. -/
theorem C3_streaming_failure_witness :
    tokensOf (generate 3 1000 c2o (some c2h) c3sd
        (fun _ => Except.ok "x")).1 = ["a", "b"] :=
  (C3_streaming_failure 3 1000 c2o c2v c2h (c2ev "a") (c2ev "b") "boom"
    c3sd (fun _ => Except.ok "x")
    (by decide) (by decide) (by decide) rfl (by decide) (by decide)).1

def c3sdBad : Nat → List StreamEvent × StreamOutcome :=
  fun _ => ([c2ev "a", c2ev "b"], StreamOutcome.raise "network")

/-- Counterexample to C3 as stated: if the raised message is retryable
("network"), the stream is retried — `onToken` fires four times, not
twice, and the surfaced error is `NETWORK_ERROR`, not `STREAM_ERROR`. -/
theorem C3_streaming_failure_counterexample :
    tokensOf (generate 1 1 c2o (some c2h) c3sdBad
        (fun _ => Except.ok "x")).1 = ["a", "b", "a", "b"] ∧
      (generate 1 1 c2o (some c2h) c3sdBad (fun _ => Except.ok "x")).2 =
        Except.error
          { msg := "Network error occurred", code := ErrorCode.NETWORK_ERROR
            cause := some "network", ctx := ErrCtx.attempts 2 } := by
  constructor <;> decide

def c4outs : Nat → Except String String :=
  fun _ => Except.error "rate limit model not found"

/-- Counterexample to C4 as stated: a failure message containing both
"model not found" and "rate limit" is retryable (a retry occurs: attempts
0 and 1 execute) and the surfaced error is `RATE_LIMIT_EXCEEDED`, not
`INVALID_MODEL`. -/
theorem C4_model_not_found_counterexample :
    attemptsOf (generate 1 1 c1o none c1sd c4outs).1 = [0, 1] ∧
      (generate 1 1 c1o none c1sd c4outs).2 =
        Except.error
          { msg := "Rate limit exceeded"
            code := ErrorCode.RATE_LIMIT_EXCEEDED
            cause := some "rate limit model not found"
            ctx := ErrCtx.promptModel "p" "llama2" } := by
  constructor <;> decide

/-- C4 (amended): with stream=false, an attempt failure whose message
contains "model not found" and none of the retryable substrings
("rate limit", "network", "timeout") surfaces an `INVALID_MODEL` error
with no retry: only attempt 0 executes and no sleep happens. -/
theorem C4_model_not_found (M B : Nat) (o : RawGenerateOptions)
    (v : GenerateOptions) (handler : Option StreamHandler)
    (sd : Nat → List StreamEvent × StreamOutcome)
    (outs : Nat → Except String String) (msg : String)
    (hv : validateGenerateOptions o = Except.ok v)
    (hstream : v.stream = false)
    (hmsg : strContains msg "model not found" = true)
    (hnr : isRetryableError msg = false)
    (houts : outs 0 = Except.error msg) :
    (generate M B o handler sd outs).1 = [LogEvent.attemptExec 0] ∧
      attemptsOf (generate M B o handler sd outs).1 = [0] ∧
      sleepsOf (generate M B o handler sd outs).1 = [] ∧
      (generate M B o handler sd outs).2 =
        Except.error
          { msg := "Invalid model specified", code := ErrorCode.INVALID_MODEL
            cause := some msg, ctx := ErrCtx.modelOnly v.model } := by
  have hrl : strContains msg "rate limit" = false := by
    simp only [isRetryableError, Bool.or_eq_false_iff] at hnr
    exact hnr.1.1
  have hstop := retryLoop_stop B (singleRun outs) 0 M msg
    (by simpa [singleRun] using houts) hnr
  have hgen : generate M B o handler sd outs =
      classifyResult o v M (retryLoop B (singleRun outs) 0 M) := by
    cases handler with
    | none => exact generate_ok_single M B o v sd outs hv
    | some h => exact generate_ok_single_handler M B o v h sd outs hv hstream
  rw [hgen, hstop]
  simp only [classifyResult, singleRun, preLog, if_pos rfl, List.append_nil]
  rw [show buildTerminalError msg (o.stream.getD false) v.prompt v.model M =
      { msg := "Invalid model specified", code := ErrorCode.INVALID_MODEL
        cause := some msg, ctx := ErrCtx.modelOnly v.model } by
    simp [buildTerminalError, hrl, hmsg]]
  simp [attemptsOf, sleepsOf]

/-- Witness for the amended C4 at a plain "model not found" failure. -/
theorem C4_model_not_found_witness :
    (generate 3 1000 c1o none c1sd
        (fun _ => Except.error "model not found")).2 =
      Except.error
        { msg := "Invalid model specified", code := ErrorCode.INVALID_MODEL
          cause := some "model not found"
          ctx := ErrCtx.modelOnly "llama2" } :=
  (C4_model_not_found 3 1000 c1o c1v none c1sd
    (fun _ => Except.error "model not found") "model not found"
    (by decide) (by decide) (by decide) (by decide) rfl).2.2.2

/-- Counterexample to C5 as stated: an input whose prompt has length 1 and
whose temperature/topP are absent can still fail validation — an explicit
empty `model` is rejected, so the claim's quantification is too broad. -/
theorem C5_validation_defaults_counterexample :
    validateGenerateOptions
        { prompt := "p", model := some "", context := none
          temperature := none, topP := none, system := none
          stream := none } =
      Except.error "Model ID cannot be empty" := by
  decide

/-- C5 (amended): if additionally `model`, when present, is non-empty,
validation succeeds and every omitted optional field receives exactly its
stated default: model "llama2", context [], temperature 0.7, topP 0.9,
stream false, system stays absent. -/
theorem C5_validation_defaults (o : RawGenerateOptions)
    (hp1 : 1 ≤ o.prompt.length) (hp2 : o.prompt.length ≤ 1000)
    (hm : o.model ≠ some "")
    (htemp : ∀ t, o.temperature = some t → 0 ≤ t ∧ t ≤ 2)
    (htp : ∀ t, o.topP = some t → 0 ≤ t ∧ t ≤ 1) :
    validateGenerateOptions o =
      Except.ok
        { prompt := o.prompt
          model := o.model.getD "llama2"
          context := o.context.getD []
          temperature := o.temperature.getD (mkRat 7 10)
          topP := o.topP.getD (mkRat 9 10)
          system := o.system
          stream := o.stream.getD false } := by
  have hm2 : ¬ o.model.getD "llama2" = "" := by
    cases homod : o.model with
    | none => simp
    | some m =>
        simp only [Option.getD]
        intro hc
        exact hm (by rw [homod, hc])
  have htemp2 : inRangeOpt o.temperature 0 2 = true := by
    cases hot : o.temperature with
    | none => rfl
    | some t =>
        simp only [inRangeOpt]
        exact decide_eq_true (htemp t hot)
  have htp2 : inRangeOpt o.topP 0 1 = true := by
    cases hot : o.topP with
    | none => rfl
    | some t =>
        simp only [inRangeOpt]
        exact decide_eq_true (htp t hot)
  unfold validateGenerateOptions
  rw [if_neg (by omega), if_neg (by omega), if_neg hm2,
    if_neg (not_not_intro htemp2), if_neg (not_not_intro htp2)]

/-- Witness for the amended C5 at an all-defaults input. -/
theorem C5_validation_defaults_witness :
    validateGenerateOptions c1o = Except.ok c1v :=
  C5_validation_defaults c1o (by decide) (by decide) (by decide)
    (by intro t ht; cases ht) (by intro t ht; cases ht)

/-! ### Registry claims -/

lemma cacheGet_set_self {α : Type} (m : List (String × α)) (k : String)
    (v : α) : cacheGet (cacheSet m k v) k = some v := by
  induction m with
  | nil => simp [cacheSet, cacheGet]
  | cons p rest ih =>
      by_cases hk : p.1 = k
      · simp [cacheSet, hk, cacheGet]
      · simp [cacheSet, hk, cacheGet, ih]

lemma cacheGet_set_ne {α : Type} (m : List (String × α)) (k k' : String)
    (v : α) (h : k' ≠ k) :
    cacheGet (cacheSet m k v) k' = cacheGet m k' := by
  induction m with
  | nil => simp [cacheSet, cacheGet, Ne.symm h]
  | cons p rest ih =>
      by_cases hk : p.1 = k
      · subst hk
        simp [cacheSet, cacheGet, Ne.symm h, h]
      · simp [cacheSet, cacheGet, hk, ih]

/-- C7: `getModel` contract — a cached descriptor is returned with no
remote call and no state change; an uncached id triggers one remote
lookup: a "no such model" failure yields null (no error), any other
failure yields an `INVALID_MODEL` error, and a success synthesizes the
default-capability descriptor with the raw remote blob, caches it, and
returns it. -/
theorem C7_getModel (st : RegState)
    (showR : String → Except String RemoteBlob) (id : String) :
    (∀ c, cacheGet st.modelConfigs id = some c →
      getModel st showR id = (st, [], Except.ok (some c))) ∧
      (cacheGet st.modelConfigs id = none →
        ∀ msg, showR id = Except.error msg →
          strContains msg "no such model" = true →
          getModel st showR id =
            (st, [RemoteCall.show id], Except.ok none)) ∧
      (cacheGet st.modelConfigs id = none →
        ∀ msg, showR id = Except.error msg →
          strContains msg "no such model" = false →
          getModel st showR id =
            (st, [RemoteCall.show id], Except.error
              { msg := "Failed to get model information"
                code := ErrorCode.INVALID_MODEL
                cause := some msg, ctx := ErrCtx.noCtx })) ∧
      (cacheGet st.modelConfigs id = none →
        ∀ blob, showR id = Except.ok blob →
          getModel st showR id =
            ({ st with modelConfigs :=
                cacheSet st.modelConfigs id (synthModelConfig id blob) },
              [RemoteCall.show id],
              Except.ok (some (synthModelConfig id blob))) ∧
          cacheGet (getModel st showR id).1.modelConfigs id =
            some (synthModelConfig id blob)) := by
  refine ⟨?_, ?_, ?_, ?_⟩
  · intro c hc
    simp [getModel, hc]
  · intro hc msg hshow hno
    simp [getModel, hc, hshow, hno]
  · intro hc msg hshow hno
    simp [getModel, hc, hshow, hno]
  · intro hc blob hshow
    refine ⟨by simp [getModel, hc, hshow], ?_⟩
    simp [getModel, hc, hshow, cacheGet_set_self]

/-- Witness for C7: the seeded "llama2" entry short-circuits; an unknown
id whose remote lookup reports "no such model" yields null. -/
theorem C7_getModel_witness :
    getModel initRegState (fun _ => Except.error "boom") "llama2" =
        (initRegState, [], Except.ok (some llama2Config)) ∧
      getModel initRegState (fun _ => Except.error "no such model: m") "m" =
        (initRegState, [RemoteCall.show "m"], Except.ok none) :=
  ⟨(C7_getModel initRegState (fun _ => Except.error "boom") "llama2").1
      llama2Config (by decide),
    (C7_getModel initRegState (fun _ => Except.error "no such model: m")
      "m").2.1 (by decide) "no such model: m" rfl (by decide)⟩

/-- Counterexample to C9 as stated: the descriptor cache is NOT empty
immediately after construction — the constructor seeds it with a
"llama2" descriptor (display name "Llama 2") before any listing or
lookup. -/
theorem C9_registry_counterexample :
    initRegState.modelConfigs ≠ [] ∧
      cacheGet initRegState.modelConfigs "llama2" = some llama2Config := by
  constructor
  · simp [initRegState]
  · decide

/-- The state component of the `listModels` fold, decoupled from the
returned descriptor list. -/
lemma listFold_state (names : List String) :
    ∀ (st : RegState) (acc : List ModelConfig),
      (names.foldl
        (fun (a : RegState × List ModelConfig) name =>
          let q := listStep a.1 name
          (q.1, a.2 ++ [q.2]))
        (st, acc)).1 =
      names.foldl (fun s name => (listStep s name).1) st := by
  induction names with
  | nil =>
      intro st acc
      rfl
  | cons name rest ih =>
      intro st acc
      simp only [List.foldl_cons]
      exact ih _ _

/-- A key absent before the `listModels` fold and present after it was one
of the listed names. -/
lemma listFold_state_mem (names : List String) :
    ∀ (st : RegState) (k : String),
      cacheGet st.modelConfigs k = none →
      (cacheGet
        ((names.foldl (fun s name => (listStep s name).1) st).modelConfigs)
        k).isSome = true →
      k ∈ names := by
  induction names with
  | nil =>
      intro st k hnone hsome
      simp only [List.foldl_nil] at hsome
      rw [hnone] at hsome
      cases hsome
  | cons name rest ih =>
      intro st k hnone hsome
      by_cases hk : k = name
      · exact hk ▸ List.mem_cons_self name rest
      · have hstep : cacheGet ((listStep st name).1).modelConfigs k = none := by
          simp only [listStep]
          rw [cacheGet_set_ne _ _ _ _ hk]
          exact hnone
        refine List.mem_cons_of_mem name
          (ih ((listStep st name).1) k hstep ?_)
        simpa using hsome

/-- C9 (amended): immediately after construction the descriptor cache
holds exactly the "llama2" descriptor the constructor seeds (id "llama2",
display name "Llama 2", default capabilities); every OTHER entry is
inserted only at its first observation — `getModel id` can only insert
the looked-up id, and a successful `listModels` can only insert listed
names. -/
theorem C9_registry_insertions :
    initRegState.modelConfigs = [("llama2", llama2Config)] ∧
      (∀ (st : RegState) (showR : String → Except String RemoteBlob)
          (id k : String),
        cacheGet st.modelConfigs k = none →
        (cacheGet (getModel st showR id).1.modelConfigs k).isSome = true →
        k = id) ∧
      (∀ (st : RegState) (names : List String) (k : String),
        cacheGet st.modelConfigs k = none →
        (cacheGet (listModels st (Except.ok names)).1.modelConfigs k).isSome
          = true →
        k ∈ names) := by
  refine ⟨rfl, ?_, ?_⟩
  · intro st showR id k hnone hsome
    by_contra hk
    have hg : cacheGet (getModel st showR id).1.modelConfigs k =
        cacheGet st.modelConfigs k := by
      cases hcache : cacheGet st.modelConfigs id with
      | some c => simp [getModel, hcache]
      | none =>
          cases hshow : showR id with
          | ok blob =>
              simp [getModel, hcache, hshow, cacheGet_set_ne _ _ _ _ hk]
          | error msg =>
              by_cases hno : strContains msg "no such model" = true
              · simp [getModel, hcache, hshow, hno]
              · simp [getModel, hcache, hshow, hno]
    rw [hg, hnone] at hsome
    simp at hsome
  · intro st names k hnone hsome
    refine listFold_state_mem names st k hnone ?_
    rw [← listFold_state names st []]
    simpa [listModels] using hsome

/-- Witness for the amended C9: the seeded state is exactly the llama2
entry, and an id freshly inserted by a listing was indeed listed. -/
theorem C9_registry_insertions_witness :
    initRegState.modelConfigs = [("llama2", llama2Config)] ∧
      ("m" : String) ∈ (["m"] : List String) :=
  ⟨C9_registry_insertions.1,
    C9_registry_insertions.2.2 initRegState ["m"] "m" (by decide) (by decide)⟩

/-- C10: every status `getModelStatus` returns (and writes back to the
status cache) is "ready" or "error" — never "loading" — and `loaded` holds
iff the status is "ready". -/
theorem C10_getModelStatus (st : RegState)
    (showR : String → Except String RemoteBlob) (id : String) :
    ((getModelStatus st showR id).2.status = StatusKind.ready ∨
        (getModelStatus st showR id).2.status = StatusKind.errorK) ∧
      cacheGet (getModelStatus st showR id).1.modelStatus id =
        some (getModelStatus st showR id).2 ∧
      ((getModelStatus st showR id).2.loaded = true ↔
        (getModelStatus st showR id).2.status = StatusKind.ready) := by
  cases hshow : showR id with
  | ok blob => simp [getModelStatus, hshow, cacheGet_set_self]
  | error msg => simp [getModelStatus, hshow, cacheGet_set_self]

/-! ### C8: the flattening refinement -/

/-- Keys of an association list, in order. -/
def keysOf {α : Type} (m : List (String × α)) : List String :=
  m.map Prod.fst

/-- Entry a present numeric field contributes per the spec's rename table,
amended by the code's truthiness guard: a zero value is dropped. -/
def numEntry (name : String) (v : Option Nat) : List (String × PVal) :=
  match v with
  | none => []
  | some n => if n = 0 then [] else [(name, PVal.num n)]

/-- Entry a present boolean field contributes (present ⇒ emitted, `false`
included). -/
def boolEntry (name : String) (v : Option Bool) : List (String × PVal) :=
  match v with
  | none => []
  | some b => [(name, PVal.boolV b)]

/-- Entry a present quantization field contributes. -/
def quantEntry (v : Option Quant) : List (String × PVal) :=
  match v with
  | none => []
  | some q => [("quantization", PVal.quant q)]

/-- The free-form extras of a config, empty when absent. -/
def extrasOf (c : ModelConfigOptions) : List (String × PVal) :=
  match c.parameters with
  | none => []
  | some p => p.modelParams.getD []

/-- The fixed remote parameter names of the spec's rename table. -/
def fixedNames : List String :=
  ["context_length", "gpu_layers", "quantization", "num_threads",
    "batch_size", "max_memory", "max_gpu_memory", "num_cpu",
    "use_gpu", "use_metal", "use_tensor_cores"]

/-- The entries the spec's rename table assigns to a present `parameters`
group, in source order. -/
def paramsSeg (p : ParamsOpts) : List (String × PVal) :=
  numEntry "context_length" p.contextLength ++
    numEntry "gpu_layers" p.gpuLayers ++
    quantEntry p.quantization ++
    numEntry "num_threads" p.threads ++
    numEntry "batch_size" p.batchSize ++
    p.modelParams.getD []

/-- The entries assigned to a present `resources` group. -/
def resourcesSeg (r : ResourceOpts) : List (String × PVal) :=
  numEntry "max_memory" r.maxMemory ++
    numEntry "max_gpu_memory" r.maxGpuMemory ++
    numEntry "num_cpu" r.cpuCores

/-- The entries assigned to a present `performance` group. -/
def perfSeg (pf : PerfOpts) : List (String × PVal) :=
  boolEntry "use_gpu" pf.useGpu ++
    boolEntry "use_metal" pf.useMetal ++
    boolEntry "use_tensor_cores" pf.useTensorCores

/-- Modelled from the spec (§4.5): the flat parameter vector as the spec's
fixed field-rename table describes it — one renamed entry per present
field, extras merged verbatim, nothing for absent fields — amended by the
code's truthiness guard, which also drops present numeric fields whose
value is 0. -/
def specFlattenAmended (c : ModelConfigOptions) : List (String × PVal) :=
  (match c.parameters with
    | none => []
    | some p => paramsSeg p) ++
    (match c.resources with
      | none => []
      | some r => resourcesSeg r) ++
    (match c.performance with
      | none => []
      | some pf => perfSeg pf)

lemma cacheGet_not_mem_keys {α : Type} :
    ∀ (m : List (String × α)) (k : String), k ∉ keysOf m →
      cacheGet m k = none := by
  intro m
  induction m with
  | nil =>
      intro k _
      rfl
  | cons p rest ih =>
      intro k h
      simp only [keysOf, List.map_cons, List.mem_cons, not_or] at h
      simp only [cacheGet, if_neg (Ne.symm h.1)]
      exact ih k (by simpa [keysOf] using h.2)

lemma cacheGet_append_none {α : Type} :
    ∀ (a b : List (String × α)) (k : String), cacheGet a k = none →
      cacheGet b k = none → cacheGet (a ++ b) k = none := by
  intro a
  induction a with
  | nil =>
      intro b k _ hb
      exact hb
  | cons p rest ih =>
      intro b k ha hb
      simp only [cacheGet] at ha
      by_cases hk : p.1 = k
      · rw [if_pos hk] at ha
        cases ha
      · rw [if_neg hk] at ha
        simp only [List.cons_append, cacheGet, if_neg hk]
        exact ih b k ha hb

lemma cacheSet_fresh {α : Type} :
    ∀ (m : List (String × α)) (k : String) (v : α),
      cacheGet m k = none → cacheSet m k v = m ++ [(k, v)] := by
  intro m
  induction m with
  | nil =>
      intro k v _
      rfl
  | cons p rest ih =>
      intro k v h
      simp only [cacheGet] at h
      by_cases hk : p.1 = k
      · rw [if_pos hk] at h
        cases h
      · rw [if_neg hk] at h
        simp [cacheSet, hk, ih k v h]

lemma cacheGet_numEntry_ne (name k : String) (v : Option Nat)
    (h : k ≠ name) : cacheGet (numEntry name v) k = none := by
  cases v with
  | none => rfl
  | some n =>
      by_cases hn : n = 0
      · simp [numEntry, hn, cacheGet]
      · simp [numEntry, hn, cacheGet, Ne.symm h]

lemma cacheGet_boolEntry_ne (name k : String) (v : Option Bool)
    (h : k ≠ name) : cacheGet (boolEntry name v) k = none := by
  cases v with
  | none => rfl
  | some b => simp [boolEntry, cacheGet, Ne.symm h]

lemma cacheGet_quantEntry_ne (k : String) (v : Option Quant)
    (h : k ≠ "quantization") : cacheGet (quantEntry v) k = none := by
  cases v with
  | none => rfl
  | some q => simp [quantEntry, cacheGet, Ne.symm h]

lemma setNum_fresh (m : List (String × PVal)) (name : String)
    (v : Option Nat) (h : cacheGet m name = none) :
    setNum m name v = m ++ numEntry name v := by
  cases v with
  | none => simp [setNum, numEntry]
  | some n =>
      by_cases hn : n = 0
      · simp [setNum, numEntry, hn]
      · simp [setNum, numEntry, hn, cacheSet_fresh m name _ h]

lemma setBool_fresh (m : List (String × PVal)) (name : String)
    (v : Option Bool) (h : cacheGet m name = none) :
    setBool m name v = m ++ boolEntry name v := by
  cases v with
  | none => simp [setBool, boolEntry]
  | some b => simp [setBool, boolEntry, cacheSet_fresh m name _ h]

lemma setQuant_fresh (m : List (String × PVal)) (v : Option Quant)
    (h : cacheGet m "quantization" = none) :
    setQuant m v = m ++ quantEntry v := by
  cases v with
  | none => simp [setQuant, quantEntry]
  | some q => simp [setQuant, quantEntry, cacheSet_fresh m _ _ h]

lemma foldSet_fresh :
    ∀ (ps m : List (String × PVal)),
      (∀ k, k ∈ keysOf ps → cacheGet m k = none) →
      (keysOf ps).Nodup →
      ps.foldl (fun acc kv => cacheSet acc kv.1 kv.2) m = m ++ ps := by
  intro ps
  induction ps with
  | nil =>
      intro m _ _
      simp
  | cons kv rest ih =>
      intro m hfresh hnd
      simp only [keysOf, List.map_cons, List.nodup_cons] at hnd
      have h1 : cacheGet m kv.1 = none := hfresh kv.1 (by simp [keysOf])
      have hrest : ∀ k, k ∈ keysOf rest →
          cacheGet (m ++ [(kv.1, kv.2)]) k = none := by
        intro k hk
        have hne : k ≠ kv.1 := by
          intro hc
          apply hnd.1
          have hmem := hc ▸ hk
          simpa [keysOf] using hmem
        refine cacheGet_append_none m [(kv.1, kv.2)] k
          (hfresh k (List.mem_cons_of_mem kv.1 hk)) ?_
        simp [cacheGet, Ne.symm hne]
      calc (kv :: rest).foldl (fun acc p => cacheSet acc p.1 p.2) m
      _ = rest.foldl (fun acc p => cacheSet acc p.1 p.2)
            (cacheSet m kv.1 kv.2) := by simp
      _ = rest.foldl (fun acc p => cacheSet acc p.1 p.2)
            (m ++ [(kv.1, kv.2)]) := by rw [cacheSet_fresh m kv.1 kv.2 h1]
      _ = (m ++ [(kv.1, kv.2)]) ++ rest :=
            ih (m ++ [(kv.1, kv.2)]) hrest (by simpa [keysOf] using hnd.2)
      _ = m ++ (kv :: rest) := by simp

lemma setExtras_fresh (m : List (String × PVal))
    (v : Option (List (String × PVal)))
    (hfresh : ∀ k, k ∈ keysOf (v.getD []) → cacheGet m k = none)
    (hnd : (keysOf (v.getD [])).Nodup) :
    setExtras m v = m ++ v.getD [] := by
  cases v with
  | none => simp [setExtras]
  | some ps =>
      simp only [setExtras, Option.getD] at hfresh hnd ⊢
      exact foldSet_fresh ps m hfresh hnd

lemma ne_of_not_mem_fixedNames (k name : String) (hk : k ∉ fixedNames)
    (hname : name ∈ fixedNames) : k ≠ name :=
  fun hc => hk (hc ▸ hname)

/-- With all five fixed names and the extras keys fresh in `m`, the
`parameters` assignments append exactly the spec's segment. -/
lemma flattenParams_eq (m : List (String × PVal)) (p : ParamsOpts)
    (h1 : cacheGet m "context_length" = none)
    (h2 : cacheGet m "gpu_layers" = none)
    (h3 : cacheGet m "quantization" = none)
    (h4 : cacheGet m "num_threads" = none)
    (h5 : cacheGet m "batch_size" = none)
    (hex : ∀ k, k ∈ keysOf (p.modelParams.getD []) → cacheGet m k = none)
    (hexf : ∀ k, k ∈ keysOf (p.modelParams.getD []) → k ∉ fixedNames)
    (hnd : (keysOf (p.modelParams.getD [])).Nodup) :
    flattenParams m p = m ++ paramsSeg p := by
  have e1 := setNum_fresh m "context_length" p.contextLength h1
  have f2 : cacheGet (m ++ numEntry "context_length" p.contextLength)
      "gpu_layers" = none :=
    cacheGet_append_none _ _ _ h2 (cacheGet_numEntry_ne _ _ _ (by decide))
  have e2 := setNum_fresh _ "gpu_layers" p.gpuLayers f2
  have f3 : cacheGet (m ++ numEntry "context_length" p.contextLength ++
      numEntry "gpu_layers" p.gpuLayers) "quantization" = none :=
    cacheGet_append_none _ _ _
      (cacheGet_append_none _ _ _ h3 (cacheGet_numEntry_ne _ _ _ (by decide)))
      (cacheGet_numEntry_ne _ _ _ (by decide))
  have e3 := setQuant_fresh _ p.quantization f3
  have f4 : cacheGet (m ++ numEntry "context_length" p.contextLength ++
      numEntry "gpu_layers" p.gpuLayers ++ quantEntry p.quantization)
      "num_threads" = none :=
    cacheGet_append_none _ _ _
      (cacheGet_append_none _ _ _
        (cacheGet_append_none _ _ _ h4
          (cacheGet_numEntry_ne _ _ _ (by decide)))
        (cacheGet_numEntry_ne _ _ _ (by decide)))
      (cacheGet_quantEntry_ne _ _ (by decide))
  have e4 := setNum_fresh _ "num_threads" p.threads f4
  have f5 : cacheGet (m ++ numEntry "context_length" p.contextLength ++
      numEntry "gpu_layers" p.gpuLayers ++ quantEntry p.quantization ++
      numEntry "num_threads" p.threads) "batch_size" = none :=
    cacheGet_append_none _ _ _
      (cacheGet_append_none _ _ _
        (cacheGet_append_none _ _ _
          (cacheGet_append_none _ _ _ h5
            (cacheGet_numEntry_ne _ _ _ (by decide)))
          (cacheGet_numEntry_ne _ _ _ (by decide)))
        (cacheGet_quantEntry_ne _ _ (by decide)))
      (cacheGet_numEntry_ne _ _ _ (by decide))
  have e5 := setNum_fresh _ "batch_size" p.batchSize f5
  have fex : ∀ k, k ∈ keysOf (p.modelParams.getD []) →
      cacheGet (m ++ numEntry "context_length" p.contextLength ++
        numEntry "gpu_layers" p.gpuLayers ++ quantEntry p.quantization ++
        numEntry "num_threads" p.threads ++
        numEntry "batch_size" p.batchSize) k = none := by
    intro k hk
    have hkf := hexf k hk
    refine cacheGet_append_none _ _ _
      (cacheGet_append_none _ _ _
        (cacheGet_append_none _ _ _
          (cacheGet_append_none _ _ _
            (cacheGet_append_none _ _ _ (hex k hk)
              (cacheGet_numEntry_ne _ _ _
                (ne_of_not_mem_fixedNames k _ hkf (by decide))))
            (cacheGet_numEntry_ne _ _ _
              (ne_of_not_mem_fixedNames k _ hkf (by decide))))
          (cacheGet_quantEntry_ne _ _
            (ne_of_not_mem_fixedNames k _ hkf (by decide))))
        (cacheGet_numEntry_ne _ _ _
          (ne_of_not_mem_fixedNames k _ hkf (by decide))))
      (cacheGet_numEntry_ne _ _ _
        (ne_of_not_mem_fixedNames k _ hkf (by decide)))
  have eex := setExtras_fresh _ p.modelParams fex hnd
  simp only [flattenParams]
  rw [e1, e2, e3, e4, e5, eex]
  simp [paramsSeg, List.append_assoc]

/-- With the three resource names fresh in `m`, the `resources`
assignments append exactly the spec's segment. -/
lemma flattenResources_eq (m : List (String × PVal)) (r : ResourceOpts)
    (h1 : cacheGet m "max_memory" = none)
    (h2 : cacheGet m "max_gpu_memory" = none)
    (h3 : cacheGet m "num_cpu" = none) :
    flattenResources m r = m ++ resourcesSeg r := by
  have e1 := setNum_fresh m "max_memory" r.maxMemory h1
  have f2 : cacheGet (m ++ numEntry "max_memory" r.maxMemory)
      "max_gpu_memory" = none :=
    cacheGet_append_none _ _ _ h2 (cacheGet_numEntry_ne _ _ _ (by decide))
  have e2 := setNum_fresh _ "max_gpu_memory" r.maxGpuMemory f2
  have f3 : cacheGet (m ++ numEntry "max_memory" r.maxMemory ++
      numEntry "max_gpu_memory" r.maxGpuMemory) "num_cpu" = none :=
    cacheGet_append_none _ _ _
      (cacheGet_append_none _ _ _ h3 (cacheGet_numEntry_ne _ _ _ (by decide)))
      (cacheGet_numEntry_ne _ _ _ (by decide))
  have e3 := setNum_fresh _ "num_cpu" r.cpuCores f3
  simp only [flattenResources]
  rw [e1, e2, e3]
  simp [resourcesSeg, List.append_assoc]

/-- With the three performance names fresh in `m`, the `performance`
assignments append exactly the spec's segment. -/
lemma flattenPerf_eq (m : List (String × PVal)) (pf : PerfOpts)
    (h1 : cacheGet m "use_gpu" = none)
    (h2 : cacheGet m "use_metal" = none)
    (h3 : cacheGet m "use_tensor_cores" = none) :
    flattenPerf m pf = m ++ perfSeg pf := by
  have e1 := setBool_fresh m "use_gpu" pf.useGpu h1
  have f2 : cacheGet (m ++ boolEntry "use_gpu" pf.useGpu) "use_metal" =
      none :=
    cacheGet_append_none _ _ _ h2 (cacheGet_boolEntry_ne _ _ _ (by decide))
  have e2 := setBool_fresh _ "use_metal" pf.useMetal f2
  have f3 : cacheGet (m ++ boolEntry "use_gpu" pf.useGpu ++
      boolEntry "use_metal" pf.useMetal) "use_tensor_cores" = none :=
    cacheGet_append_none _ _ _
      (cacheGet_append_none _ _ _ h3 (cacheGet_boolEntry_ne _ _ _ (by decide)))
      (cacheGet_boolEntry_ne _ _ _ (by decide))
  have e3 := setBool_fresh _ "use_tensor_cores" pf.useTensorCores f3
  simp only [flattenPerf]
  rw [e1, e2, e3]
  simp [perfSeg, List.append_assoc]

/-- Any name other than the five parameter names and the extras keys is
absent from the parameters segment. -/
lemma cacheGet_paramsSeg_none (p : ParamsOpts) (name : String)
    (hn1 : name ≠ "context_length") (hn2 : name ≠ "gpu_layers")
    (hn3 : name ≠ "quantization") (hn4 : name ≠ "num_threads")
    (hn5 : name ≠ "batch_size")
    (hex : name ∉ keysOf (p.modelParams.getD [])) :
    cacheGet (paramsSeg p) name = none := by
  unfold paramsSeg
  refine cacheGet_append_none _ _ _
    (cacheGet_append_none _ _ _
      (cacheGet_append_none _ _ _
        (cacheGet_append_none _ _ _
          (cacheGet_append_none _ _ _
            (cacheGet_numEntry_ne _ _ _ hn1)
            (cacheGet_numEntry_ne _ _ _ hn2))
          (cacheGet_quantEntry_ne _ _ hn3))
        (cacheGet_numEntry_ne _ _ _ hn4))
      (cacheGet_numEntry_ne _ _ _ hn5))
    (cacheGet_not_mem_keys _ _ hex)

/-- Any name other than the three resource names is absent from the
resources segment. -/
lemma cacheGet_resourcesSeg_none (r : ResourceOpts) (name : String)
    (hn1 : name ≠ "max_memory") (hn2 : name ≠ "max_gpu_memory")
    (hn3 : name ≠ "num_cpu") :
    cacheGet (resourcesSeg r) name = none := by
  unfold resourcesSeg
  refine cacheGet_append_none _ _ _
    (cacheGet_append_none _ _ _
      (cacheGet_numEntry_ne _ _ _ hn1)
      (cacheGet_numEntry_ne _ _ _ hn2))
    (cacheGet_numEntry_ne _ _ _ hn3)

/-- C8 (amended): for every validated `ModelConfigOptions` whose extras
keys are duplicate-free and disjoint from the fixed rename table, the flat
parameter vector the code builds equals the spec's renamed sparse vector,
except that present numeric fields with value 0 are dropped by the code's
truthiness guards. -/
theorem C8_flatten_rename (c : ModelConfigOptions)
    (hnd : (keysOf (extrasOf c)).Nodup)
    (hdisj : ∀ k, k ∈ keysOf (extrasOf c) → k ∉ fixedNames) :
    flattenConfig c = specFlattenAmended c := by
  obtain ⟨cp, cr, cpf⟩ := c
  simp only [flattenConfig, specFlattenAmended]
  cases cp with
  | none =>
      cases cr with
      | none =>
          cases cpf with
          | none => rfl
          | some pf =>
              dsimp only
              rw [flattenPerf_eq [] pf rfl rfl rfl]
              simp
      | some r =>
          dsimp only
          rw [flattenResources_eq [] r rfl rfl rfl]
          cases cpf with
          | none => simp
          | some pf =>
              have hg : ∀ name : String, name ≠ "max_memory" →
                  name ≠ "max_gpu_memory" → name ≠ "num_cpu" →
                  cacheGet ([] ++ resourcesSeg r) name = none := by
                intro name hn1 hn2 hn3
                simp only [List.nil_append]
                exact cacheGet_resourcesSeg_none r name hn1 hn2 hn3
              dsimp only
              rw [flattenPerf_eq _ pf
                (hg _ (by decide) (by decide) (by decide))
                (hg _ (by decide) (by decide) (by decide))
                (hg _ (by decide) (by decide) (by decide))]
  | some p =>
      simp only [extrasOf] at hnd hdisj
      have hpar := flattenParams_eq [] p rfl rfl rfl rfl rfl
        (fun k _ => rfl) hdisj hnd
      dsimp only
      rw [hpar]
      simp only [List.nil_append]
      have hgp : ∀ name : String, name ∈ fixedNames →
          name ≠ "context_length" → name ≠ "gpu_layers" →
          name ≠ "quantization" → name ≠ "num_threads" →
          name ≠ "batch_size" →
          cacheGet (paramsSeg p) name = none := by
        intro name hfix hn1 hn2 hn3 hn4 hn5
        refine cacheGet_paramsSeg_none p name hn1 hn2 hn3 hn4 hn5 ?_
        intro hmem
        exact hdisj name hmem hfix
      cases cr with
      | none =>
          cases cpf with
          | none => simp
          | some pf =>
              dsimp only
              rw [flattenPerf_eq _ pf
                (hgp _ (by decide) (by decide) (by decide) (by decide)
                  (by decide) (by decide))
                (hgp _ (by decide) (by decide) (by decide) (by decide)
                  (by decide) (by decide))
                (hgp _ (by decide) (by decide) (by decide) (by decide)
                  (by decide) (by decide))]
              simp
      | some r =>
          dsimp only
          rw [flattenResources_eq _ r
            (hgp _ (by decide) (by decide) (by decide) (by decide)
              (by decide) (by decide))
            (hgp _ (by decide) (by decide) (by decide) (by decide)
              (by decide) (by decide))
            (hgp _ (by decide) (by decide) (by decide) (by decide)
              (by decide) (by decide))]
          cases cpf with
          | none => simp
          | some pf =>
              have hg2 : ∀ name : String, name ∈ fixedNames →
                  name ≠ "context_length" → name ≠ "gpu_layers" →
                  name ≠ "quantization" → name ≠ "num_threads" →
                  name ≠ "batch_size" → name ≠ "max_memory" →
                  name ≠ "max_gpu_memory" → name ≠ "num_cpu" →
                  cacheGet (paramsSeg p ++ resourcesSeg r) name = none := by
                intro name hfix hn1 hn2 hn3 hn4 hn5 hr1 hr2 hr3
                exact cacheGet_append_none _ _ _
                  (hgp name hfix hn1 hn2 hn3 hn4 hn5)
                  (cacheGet_resourcesSeg_none r name hr1 hr2 hr3)
              dsimp only
              rw [flattenPerf_eq _ pf
                (hg2 _ (by decide) (by decide) (by decide) (by decide)
                  (by decide) (by decide) (by decide) (by decide) (by decide))
                (hg2 _ (by decide) (by decide) (by decide) (by decide)
                  (by decide) (by decide) (by decide) (by decide) (by decide))
                (hg2 _ (by decide) (by decide) (by decide) (by decide)
                  (by decide) (by decide) (by decide) (by decide)
                  (by decide))]

def c8zero : ModelConfigOptions :=
  { parameters := some
      { contextLength := none, gpuLayers := some 0, quantization := none
        threads := none, batchSize := none, modelParams := none }
    resources := none, performance := none }

/-- Counterexample to C8 as stated: `gpuLayers = 0` is a present field
(valid per the schema, whose bound is `min 0`), yet the flattened vector
contains NO `gpu_layers` entry — the JS truthiness guard drops the zero. -/
theorem C8_flatten_rename_counterexample :
    flattenConfig c8zero = [] ∧
      cacheGet (flattenConfig c8zero) "gpu_layers" = none := by
  constructor <;> decide

def c8full : ModelConfigOptions :=
  { parameters := some
      { contextLength := some 2048, gpuLayers := some 8
        quantization := some Quant.q4bit, threads := some 4
        batchSize := some 16, modelParams := some [("alpha", PVal.raw "A")] }
    resources := some
      { maxMemory := some 1024, maxGpuMemory := some 512, cpuCores := some 2 }
    performance := some
      { useGpu := some true, useMetal := some false
        useTensorCores := some true } }

/-- Witness for the amended C8 at a fully-populated configuration. -/
theorem C8_flatten_rename_witness :
    flattenConfig c8full = specFlattenAmended c8full :=
  C8_flatten_rename c8full (by decide) (by decide)

end Generative
